import Mathlib

/-!
Verification of the winget-cli workflow core against its specification.

The repository material available is the workflow test suite
(src/AppInstallerCLITests/WorkFlow.cpp).  The production components it
exercises (Context, WorkflowTask, the pipeline composer, GetInstallerArgs,
the install flows) are not part of the provided sources, so those are
modelled from the specification; the test harness types that are present
(WorkflowTaskOverride, TestContext::ShouldExecuteWorkflowTask,
TestContext::Override) are embedded from the source directly.
-/

namespace WingetModel

/-- Modelled from the spec: the structured termination/status codes of the
error taxonomy (the production HRESULT constants such as
APPINSTALLER_CLI_ERROR_NO_APPLICABLE_INSTALLER are not in the sources). -/
inductive TerminationCode where
  | NoApplicableApplication
  | AmbiguousSelection
  | NoApplicableInstaller
  | UnsupportedInstallerType
  | DownloadFailure
  | HashMismatch
  | InstallerFailure
deriving DecidableEq, Repr

/-- Modelled from the spec: a parsed URI, as produced by the platform Uri
class used in the tests; only the scheme is inspected by the flows. -/
structure Uri where
  scheme : String
  body : String
deriving DecidableEq, Repr

/-- Modelled from the spec: the processor architectures an installer entry
may declare. -/
inductive Architecture where
  | Neutral
  | X86
  | X64
  | Arm
  | Arm64
deriving DecidableEq, Repr

/-- Modelled from the spec: installer technologies named by the manifest. -/
inductive InstallerType where
  | Exe
  | Msi
  | Inno
  | Msix
deriving DecidableEq, Repr

/-- Modelled from the spec: a manifest-declared switch template with one
substitution point; rendering places the user-supplied value between the
surrounding text. -/
structure SwitchTemplate where
  pre : String
  suf : String
deriving DecidableEq, Repr

def SwitchTemplate.render (t : SwitchTemplate) (v : String) : String :=
  t.pre ++ v ++ t.suf

/-- Modelled from the spec: the optional switch declarations of one
installer entry (silent, silent-with-progress, log, custom,
install-location). -/
structure InstallerSwitches where
  silent : Option String := none
  silentWithProgress : Option String := none
  log : Option SwitchTemplate := none
  custom : Option String := none
  installLocation : Option SwitchTemplate := none
deriving DecidableEq, Repr

/-- Modelled from the spec: one installer entry of a manifest. -/
structure ManifestInstaller where
  arch : Architecture
  installerType : InstallerType
  url : Uri
  switches : InstallerSwitches
deriving DecidableEq, Repr

/-- Modelled from the spec: a manifest with identity, version/channel and
its ordered installer entries. -/
structure Manifest where
  id : String := ""
  name : String := ""
  version : String := ""
  channel : String := ""
  installers : List ManifestInstaller := []
deriving DecidableEq, Repr

/-- Modelled from the spec: an application handle returned by a search; it
resolves to a full manifest on demand (the test double resolves to the
manifest it was built from). -/
structure App where
  manifest : Manifest
deriving DecidableEq, Repr

/-- Modelled from the spec: the Args Store holding already-parsed
user-supplied command-line intent. -/
structure ArgsStore where
  manifestPath : Option String := none
  query : Option String := none
  silent : Bool := false
  log : Option String := none
  installLocation : Option String := none
  overrideArgs : Option String := none
  listVersions : Bool := false
deriving DecidableEq, Repr

/-- Modelled from the spec: the distinct semantic slots of the typed key-value store of the
Context (Execution::Data in the sources). -/
inductive DataKey where
  | Source
  | SearchResult
  | Manifest
  | Installer
  | InstallerPath
  | InstallerArgs
  | HashPair
deriving DecidableEq, Repr

/-- Modelled from the spec: the values stored in Context slots. -/
inductive DataValue where
  | source : DataValue
  | searchResult : List App → DataValue
  | manifest : Manifest → DataValue
  | installer : ManifestInstaller → DataValue
  | path : String → DataValue
  | args : String → DataValue
  | hashPair : DataValue
deriving DecidableEq, Repr

/-- Modelled from the spec: observable external effects of the install
executor (staging an artifact, shell-executing an installer, invoking the
packaged-app deployment with a URI). -/
inductive Effect where
  | stagedInstaller : String → Effect
  | executedInstaller : String → Effect
  | msixInstall : Uri → Effect
deriving DecidableEq, Repr

/-- Modelled from the spec: the Context state bus — typed slot store,
write-once termination flag and code, output sink, effect ledger, and the
Args Store reference. -/
structure Context where
  args : ArgsStore := {}
  terminated : Bool := false
  terminationHR : Option TerminationCode := none
  data : List (DataKey × DataValue) := []
  out : List String := []
  effects : List Effect := []

def Context.add (ctx : Context) (k : DataKey) (v : DataValue) : Context :=
  { ctx with data := (k, v) :: ctx.data }

def Context.getData (ctx : Context) (k : DataKey) : Option DataValue :=
  (ctx.data.find? (fun p => p.1 == k)).map (fun p => p.2)

def Context.containsData (ctx : Context) (k : DataKey) : Bool :=
  (ctx.getData k).isSome

/-- Modelled from the spec: Terminate sets flag and code exactly once; a
later call must not change the stored code. -/
def Context.terminate (ctx : Context) (hr : TerminationCode) : Context :=
  if ctx.terminated then ctx
  else { ctx with terminated := true, terminationHR := some hr }

def Context.println (ctx : Context) (s : String) : Context :=
  { ctx with out := ctx.out ++ [s] }

def Context.recordEffect (ctx : Context) (e : Effect) : Context :=
  { ctx with effects := ctx.effects ++ [e] }

/-! ## Installer argument composition (modelled from spec section 4.4) -/

/-- Modelled from the spec: per-technology default silent token (MSI and
Inno differ; Exe and Msix have no built-in default). -/
def defaultSilent : InstallerType → Option String
  | InstallerType.Msi => some ("/quiet")
  | InstallerType.Inno => some ("/VERYSILENT")
  | _ => none

/-- Modelled from the spec: per-technology default silent-with-progress
(passive) token. -/
def defaultSilentWithProgress : InstallerType → Option String
  | InstallerType.Msi => some ("/passive")
  | InstallerType.Inno => some ("/SILENT")
  | _ => none

/-- Modelled from the spec: per-technology default log-switch template. -/
def defaultLog : InstallerType → Option SwitchTemplate
  | InstallerType.Msi => some ⟨"/log \"", "\""⟩
  | InstallerType.Inno => some ⟨"/LOG=\"", "\""⟩
  | _ => none

/-- Modelled from the spec: per-technology default install-location switch
template (the key differs by technology). -/
def defaultInstallLocation : InstallerType → Option SwitchTemplate
  | InstallerType.Msi => some ⟨"TARGETDIR=\"", "\""⟩
  | InstallerType.Inno => some ⟨"/DIR=\"", "\""⟩
  | _ => none

/-- Modelled from the spec: the silence-category switch — manifest template
first, technology default otherwise; full-silent when the user asked for
silent, silent-with-progress otherwise. -/
def silentSwitch (args : ArgsStore) (inst : ManifestInstaller) : Option String :=
  if args.silent then
    inst.switches.silent <|> defaultSilent inst.installerType
  else
    inst.switches.silentWithProgress <|> defaultSilentWithProgress inst.installerType

/-- Modelled from the spec: the logging-category switch; the log path is
the user-supplied one, or the installer file path plus a .log suffix. -/
def logSwitch (args : ArgsStore) (inst : ManifestInstaller) (installerPath : String) : Option String :=
  let logPath := args.log.getD (installerPath ++ ".log")
  (inst.switches.log <|> defaultLog inst.installerType).map (fun t => t.render logPath)

/-- Modelled from the spec: the custom-category switch comes only from the
manifest. -/
def customSwitch (inst : ManifestInstaller) : Option String :=
  inst.switches.custom

/-- Modelled from the spec: the install-location switch appears only when
the user supplied a location; manifest template first, technology default
otherwise. -/
def installLocationSwitch (args : ArgsStore) (inst : ManifestInstaller) : Option String :=
  args.installLocation.bind (fun loc =>
    (inst.switches.installLocation <|> defaultInstallLocation inst.installerType).map
      (fun t => t.render loc))

/-- Modelled from the spec: the composed switch list — a supplied override
string is total, discarding every other switch; otherwise the per-category
switches in order, omitting categories with no applicable value. -/
def getInstallerArgsList (args : ArgsStore) (inst : ManifestInstaller) (installerPath : String) : List String :=
  match args.overrideArgs with
  | some s => [s]
  | none =>
    [silentSwitch args inst, logSwitch args inst installerPath,
     customSwitch inst, installLocationSwitch args inst].filterMap id

def joinArgs : List String → String
  | [] => ""
  | [s] => s
  | s :: rest => s ++ " " ++ joinArgs rest

/-- Modelled from the spec: GetInstallerArgs — the final command-line
string handed to the installer. -/
def getInstallerArgs (args : ArgsStore) (inst : ManifestInstaller) (installerPath : String) : String :=
  joinArgs (getInstallerArgsList args inst installerPath)

/-! ## Tasks, identity and interception -/

/-- Modelled from the spec: a well-known workflow step — a stable symbolic
name paired with its behaviour on the Context (WorkflowTask::Func in the
sources). -/
structure TaskFunc where
  name : String
  run : Context → Context

/-- Modelled from the spec: a WorkflowTask value, constructed from a
function reference, from a name string, or as a named composite group of
steps. -/
inductive WorkflowTask where
  | func : TaskFunc → WorkflowTask
  | byName : String → WorkflowTask
  | group : String → List TaskFunc → WorkflowTask

/-- Modelled from the spec: the stable symbolic identity of a Task,
independent of how it was constructed. -/
def WorkflowTask.ident : WorkflowTask → String
  | WorkflowTask.func f => f.name
  | WorkflowTask.byName n => n
  | WorkflowTask.group n _ => n

/-- Modelled from the spec: running a Task mutates the Context; a composite
group runs its members in order; a name-only Task has no body of its own. -/
def WorkflowTask.exec : WorkflowTask → Context → Context
  | WorkflowTask.func f, ctx => f.run ctx
  | WorkflowTask.byName _, ctx => ctx
  | WorkflowTask.group _ ms, ctx => ms.foldl (fun c f => f.run c) ctx

/-- Modelled from the spec: Task equality (WorkflowTask::operator== in the
production sources, not shown) — two Tasks are equal iff their symbolic
identities match. -/
def taskEq (a b : WorkflowTask) : Bool :=
  a.ident == b.ident

/-- Embedded from the source: WorkflowTaskOverride — a target task, the
substitute action, and the Used flag (initially false). -/
structure WorkflowTaskOverride where
  used : Bool := false
  target : WorkflowTask
  act : Context → Context

/-- Embedded from the source: TestContext::ShouldExecuteWorkflowTask —
find_if locates the first registered override equal to the task; if none,
return true (run normally); otherwise mark it Used, apply its substitute
action to the context, and return false.  The returned triple is the
decision, the context after any substitute action, and the override list
after any Used marking. -/
def shouldExecuteWorkflowTask : List WorkflowTaskOverride → WorkflowTask → Context →
    Bool × Context × List WorkflowTaskOverride
  | [], _, ctx => (true, ctx, [])
  | wto :: rest, task, ctx =>
    if taskEq wto.target task then
      (false, wto.act ctx, { wto with used := true } :: rest)
    else
      let r := shouldExecuteWorkflowTask rest task ctx
      (r.1, r.2.1, wto :: r.2.2)

/-- Embedded from the source: TestContext::Override appends a registered
override. -/
def registerOverride (ovs : List WorkflowTaskOverride) (wto : WorkflowTaskOverride) :
    List WorkflowTaskOverride :=
  ovs ++ [wto]

/-! ## Pipeline composer (modelled from spec section 4.3) -/

/-- The running state of one pipeline instance: the Context plus the
registered interception overrides (held by the TestContext in the
sources). -/
structure PipelineState where
  ctx : Context
  overrides : List WorkflowTaskOverride := []

/-- Modelled from the spec: one pipeline step — if the Context is already
terminated, stop without consulting the interception hook; otherwise ask
the hook, and run the Task body only when it answers true. -/
def runTask (st : PipelineState) (t : WorkflowTask) : PipelineState :=
  if st.ctx.terminated then st
  else
    let r := shouldExecuteWorkflowTask st.overrides t st.ctx
    if r.1 then { ctx := t.exec r.2.1, overrides := r.2.2 }
    else { ctx := r.2.1, overrides := r.2.2 }

/-- Modelled from the spec: running a Pipeline runs its Tasks strictly in
order with the short-circuit check before each one. -/
def runPipeline (st : PipelineState) (ts : List WorkflowTask) : PipelineState :=
  ts.foldl runTask st

/-! ## Workflow tasks of the install/show flows (modelled from spec
sections 4.5 to 4.7) -/

def noAppFoundMsg : String := "No app found matching input criteria."

def multipleAppMsg : String := "Multiple apps found matching input criteria. Please refine the input."

/-- Modelled from the spec: SearchSource — query the configured source and
store the search result; the source is the injected collaborator mapping a
query to its matches. -/
def searchSourceTask (source : String → List App) : Context → Context := fun ctx =>
  match ctx.args.query with
  | some q => ctx.add DataKey.SearchResult (DataValue.searchResult (source q))
  | none => ctx

/-- Modelled from the spec: the three-way match-count policy — zero matches
prints the no-app message and terminates; two or more prints the ambiguity
message and terminates; exactly one resolves the manifest of that match and
proceeds. -/
def ensureOneMatchTask : Context → Context := fun ctx =>
  match ctx.getData DataKey.SearchResult with
  | some (DataValue.searchResult ms) =>
    match ms with
    | [] => (ctx.println noAppFoundMsg).terminate TerminationCode.NoApplicableApplication
    | [a] => ctx.add DataKey.Manifest (DataValue.manifest a.manifest)
    | _ :: _ :: _ => (ctx.println multipleAppMsg).terminate TerminationCode.AmbiguousSelection
  | _ => ctx

/-- Modelled from the spec: the architecture-compatibility relation used by
the installer selector: an entry applies when it is neutral, matches the
system architecture, or is the narrower same-family architecture. -/
def archApplicable (system entry : Architecture) : Bool :=
  entry == Architecture.Neutral || entry == system ||
    (system == Architecture.X64 && entry == Architecture.X86) ||
    (system == Architecture.Arm64 && entry == Architecture.Arm)

/-- Modelled from the spec: SelectInstaller — choose the first
architecture-applicable entry of the resolved manifest; with none,
terminate with the NoApplicableInstaller code. -/
def selectInstallerTask (system : Architecture) : Context → Context := fun ctx =>
  match ctx.getData DataKey.Manifest with
  | some (DataValue.manifest m) =>
    match m.installers.find? (fun i => archApplicable system i.arch) with
    | some i => ctx.add DataKey.Installer (DataValue.installer i)
    | none => ctx.terminate TerminationCode.NoApplicableInstaller
  | _ => ctx

/-- Modelled from the spec: the deterministic local staging path of a
downloaded artifact. -/
def stagePathFor (i : ManifestInstaller) : String :=
  "staged/" ++ i.url.body

/-- Modelled from the spec: DownloadInstallerFile — download the artifact,
record its hash pair, and stage it under a local path. -/
def downloadInstallerTask : Context → Context := fun ctx =>
  match ctx.getData DataKey.Installer with
  | some (DataValue.installer i) =>
    (((ctx.add DataKey.HashPair DataValue.hashPair).add DataKey.InstallerPath
        (DataValue.path (stagePathFor i))).recordEffect
      (Effect.stagedInstaller (stagePathFor i)))
  | _ => ctx

/-- Modelled from the spec: GetInstallerArgs as a workflow task — compose
the argument string from the selected installer, the staged path and the
user intent, and store it in the Context. -/
def getInstallerArgsTask : Context → Context := fun ctx =>
  match ctx.getData DataKey.Installer, ctx.getData DataKey.InstallerPath with
  | some (DataValue.installer i), some (DataValue.path p) =>
    ctx.add DataKey.InstallerArgs (DataValue.args (getInstallerArgs ctx.args i p))
  | _, _ => ctx

/-- Modelled from the spec: ExecuteInstaller — shell-execute the staged
artifact with the composed arguments. -/
def executeInstallerTask : Context → Context := fun ctx =>
  match ctx.getData DataKey.InstallerPath, ctx.getData DataKey.InstallerArgs with
  | some (DataValue.path p), some (DataValue.args a) =>
    ctx.recordEffect (Effect.executedInstaller (p ++ " " ++ a))
  | _, _ => ctx

/-- Modelled from the spec: MsixInstall — when the artifact was downloaded
to a local staged path, deploy a file-scheme URI built from that path;
otherwise deploy the remote URI of the installer directly (streaming). -/
def msixInstallTask : Context → Context := fun ctx =>
  match ctx.getData DataKey.InstallerPath with
  | some (DataValue.path p) => ctx.recordEffect (Effect.msixInstall ⟨"file", p⟩)
  | _ =>
    match ctx.getData DataKey.Installer with
    | some (DataValue.installer i) => ctx.recordEffect (Effect.msixInstall i.url)
    | _ => ctx

/-- Modelled from the spec: resolving a local manifest file given on the
command line (parsing itself is an external collaborator; the loaded
manifest is a parameter of the pipeline assembly). -/
def getManifestTask (m : Manifest) : Context → Context := fun ctx =>
  ctx.add DataKey.Manifest (DataValue.manifest m)

/-! ## Pipelines assembled by the install Command (modelled from spec
section 2 data flow) -/

/-- Modelled from the spec: the search half of the query-driven install
pipeline. -/
def searchPhaseTasks (source : String → List App) : List WorkflowTask :=
  [WorkflowTask.func ⟨"SearchSourceForSingle", searchSourceTask source⟩,
   WorkflowTask.func ⟨"EnsureOneMatchFromSearchResult", ensureOneMatchTask⟩]

/-- Modelled from the spec: the installer half shared by the install
pipelines. -/
def installerPhaseTasks (system : Architecture) : List WorkflowTask :=
  [WorkflowTask.func ⟨"SelectInstaller", selectInstallerTask system⟩,
   WorkflowTask.func ⟨"DownloadInstallerFile", downloadInstallerTask⟩,
   WorkflowTask.func ⟨"GetInstallerArgs", getInstallerArgsTask⟩,
   WorkflowTask.func ⟨"ExecuteInstaller", executeInstallerTask⟩]

/-- Modelled from the spec: the query-driven install pipeline. -/
def searchInstallTasks (source : String → List App) (system : Architecture) : List WorkflowTask :=
  searchPhaseTasks source ++ installerPhaseTasks system

/-- Modelled from the spec: the manifest-driven install pipeline. -/
def manifestInstallTasks (m : Manifest) (system : Architecture) : List WorkflowTask :=
  WorkflowTask.func ⟨"GetManifestFromArg", getManifestTask m⟩ :: installerPhaseTasks system

/-- Modelled from the spec: the packaged-app pipeline when the artifact is
downloaded first (local install). -/
def msixDownloadInstallTasks (m : Manifest) (system : Architecture) : List WorkflowTask :=
  [WorkflowTask.func ⟨"GetManifestFromArg", getManifestTask m⟩,
   WorkflowTask.func ⟨"SelectInstaller", selectInstallerTask system⟩,
   WorkflowTask.func ⟨"DownloadInstallerFile", downloadInstallerTask⟩,
   WorkflowTask.func ⟨"MsixInstall", msixInstallTask⟩]

/-- Modelled from the spec: the packaged-app pipeline when the artifact is
referenced directly as a remote stream (no download step). -/
def msixStreamingInstallTasks (m : Manifest) (system : Architecture) : List WorkflowTask :=
  [WorkflowTask.func ⟨"GetManifestFromArg", getManifestTask m⟩,
   WorkflowTask.func ⟨"SelectInstaller", selectInstallerTask system⟩,
   WorkflowTask.func ⟨"MsixInstall", msixInstallTask⟩]

/-- The packaged-app deployment URIs recorded in an effect ledger. -/
def installUris (es : List Effect) : List Uri :=
  es.filterMap (fun e =>
    match e with
    | Effect.msixInstall u => some u
    | _ => none)

/-! ## Helper lemmas -/

@[simp] theorem dataKey_beq_eq_decide (a b : DataKey) : (a == b) = decide (a = b) := rfl

theorem runTask_of_terminated (st : PipelineState) (t : WorkflowTask)
    (h : st.ctx.terminated = true) : runTask st t = st := by
  simp [runTask, h]

theorem runPipeline_of_terminated (st : PipelineState) (ts : List WorkflowTask)
    (h : st.ctx.terminated = true) : runPipeline st ts = st := by
  induction ts with
  | nil => rfl
  | cons t ts ih =>
    show List.foldl runTask (runTask st t) ts = st
    rw [runTask_of_terminated st t h]
    exact ih

/-- Concrete installer fixtures used across the argument-composition
claims. -/
def msiNoSwitchesInstaller (a : Architecture) (u : Uri) : ManifestInstaller :=
  { arch := a, installerType := InstallerType.Msi, url := u, switches := {} }

def innoNoSwitchesInstaller (a : Architecture) (u : Uri) : ManifestInstaller :=
  { arch := a, installerType := InstallerType.Inno, url := u, switches := {} }

def fullSwitches (sil swp cust : String) (logT locT : SwitchTemplate) : InstallerSwitches :=
  { silent := some sil, silentWithProgress := some swp, log := some logT,
    custom := some cust, installLocation := some locT }

def userIntentArgs : ArgsStore :=
  { silent := true, log := some ("MyLog.log"), installLocation := some ("MyDir") }

/-! ## Claim theorems -/

/-- Claim C1: once Context.IsTerminated() becomes true, the rest of the
pipeline run is inert — the remaining Tasks are skipped, the interception
hook is not consulted (the override list, Used flags included, is left
untouched), and no mutation from a later Task is ever observed: the whole
pipeline state after the remaining Tasks equals the state at the moment of
termination. -/
theorem pipeline_short_circuit_after_termination (st : PipelineState)
    (ts1 ts2 : List WorkflowTask)
    (h : (runPipeline st ts1).ctx.terminated = true) :
    runPipeline st (ts1 ++ ts2) = runPipeline st ts1 := by
  show List.foldl runTask st (ts1 ++ ts2) = _
  rw [List.foldl_append]
  exact runPipeline_of_terminated (runPipeline st ts1) ts2 h

def haltTask : WorkflowTask :=
  WorkflowTask.func ⟨"Halt", fun ctx => ctx.terminate TerminationCode.InstallerFailure⟩

def sentinelTask : WorkflowTask :=
  WorkflowTask.func ⟨"Sentinel", fun ctx => ctx.add DataKey.InstallerArgs (DataValue.args ("sentinel"))⟩

theorem pipeline_short_circuit_witness :
    runPipeline ⟨{}, []⟩ ([haltTask] ++ [sentinelTask]) = runPipeline ⟨{}, []⟩ [haltTask] :=
  pipeline_short_circuit_after_termination ⟨{}, []⟩ [haltTask] [sentinelTask] rfl

/-- Claim C2: a supplied (non-empty) override string is total — the
composed installer-argument string equals the override string exactly,
regardless of the installer entry and of every other user-supplied
switch. -/
theorem override_total_precedence (args : ArgsStore) (inst : ManifestInstaller)
    (installerPath s : String) (hov : args.overrideArgs = some s) (hne : s ≠ "") :
    getInstallerArgs args inst installerPath = s := by
  simp [getInstallerArgs, getInstallerArgsList, hov, joinArgs]

def overrideWitnessArgs : ArgsStore :=
  { silent := true, log := some ("MyLog.log"), installLocation := some ("MyDir"),
    overrideArgs := some ("/OverrideEverything") }

def innoWithSwitchesInstaller : ManifestInstaller :=
  { arch := Architecture.X86, installerType := InstallerType.Inno,
    url := ⟨"https", "//inno.example/setup.exe"⟩,
    switches := fullSwitches ("/mysilent") ("/mysilentwithprogress") ("/mycustom")
      ⟨"/mylog=\"", "\""⟩ ⟨"/myinstalldir=\"", "\""⟩ }

theorem override_total_precedence_witness :
    getInstallerArgs overrideWitnessArgs innoWithSwitchesInstaller ("x.exe") = "/OverrideEverything" :=
  override_total_precedence overrideWitnessArgs innoWithSwitchesInstaller ("x.exe")
    ("/OverrideEverything") rfl (by decide)

/-- Claim C6: with no manifest switches and no user flags, an MSI installer
composes to the default passive token plus a log switch whose path is the
installer file path with a .log suffix, and an Inno installer composes to
the default /SILENT token plus the same derived .log reference. -/
theorem default_tokens_msi_inno (a : Architecture) (u : Uri) (p : String) :
    getInstallerArgsList {} (msiNoSwitchesInstaller a u) p
      = ["/passive", "/log \"" ++ (p ++ ".log") ++ "\""]
    ∧ getInstallerArgsList {} (innoNoSwitchesInstaller a u) p
      = ["/SILENT", "/LOG=\"" ++ (p ++ ".log") ++ "\""]
    ∧ getInstallerArgs {} (msiNoSwitchesInstaller a u) p
      = "/passive" ++ " " ++ ("/log \"" ++ (p ++ ".log") ++ "\"")
    ∧ getInstallerArgs {} (innoNoSwitchesInstaller a u) p
      = "/SILENT" ++ " " ++ ("/LOG=\"" ++ (p ++ ".log") ++ "\"") := by
  refine ⟨rfl, rfl, rfl, rfl⟩

/-- Claim C7: with the user supplying silent, log MyLog.log and install
location MyDir and no manifest switch templates, MSI composes /quiet,
/log "MyLog.log" and TARGETDIR="MyDir", and Inno composes /VERYSILENT,
/LOG="MyLog.log" and /DIR="MyDir". -/
theorem user_flag_tokens_msi_inno (a : Architecture) (u : Uri) (p : String) :
    getInstallerArgs userIntentArgs (msiNoSwitchesInstaller a u) p
      = "/quiet /log \"MyLog.log\" TARGETDIR=\"MyDir\""
    ∧ getInstallerArgs userIntentArgs (innoNoSwitchesInstaller a u) p
      = "/VERYSILENT /LOG=\"MyLog.log\" /DIR=\"MyDir\"" := by
  refine ⟨rfl, rfl⟩

theorem mem_getInstallerArgsList (args : ArgsStore) (inst : ManifestInstaller) (p s : String)
    (hnov : args.overrideArgs = none)
    (h : silentSwitch args inst = some s ∨ logSwitch args inst p = some s
       ∨ customSwitch inst = some s ∨ installLocationSwitch args inst = some s) :
    s ∈ getInstallerArgsList args inst p := by
  simp only [getInstallerArgsList, hnov]
  refine List.mem_filterMap.mpr ⟨some s, ?_, rfl⟩
  rcases h with h | h | h | h <;> simp [h]

/-- Claim C8: for every switch category (silence, logging, custom,
install-location) and every installer, whenever the manifest declares a
switch template for that category — whatever the other categories declare —
the composed arguments use that template verbatim with the user-supplied
value substituted, in place of the technology default: the category
contribution equals the rendered manifest template and, absent an
override, it appears in the composed switch list. -/
theorem manifest_templates_take_precedence (args : ArgsStore) (inst : ManifestInstaller)
    (p : String) (hnov : args.overrideArgs = none) :
    (∀ s, inst.switches.silent = some s → args.silent = true →
      (silentSwitch args inst = some s ∧ s ∈ getInstallerArgsList args inst p))
    ∧ (∀ s, inst.switches.silentWithProgress = some s → args.silent = false →
      (silentSwitch args inst = some s ∧ s ∈ getInstallerArgsList args inst p))
    ∧ (∀ t, inst.switches.log = some t →
      (logSwitch args inst p = some (t.render (args.log.getD (p ++ ".log")))
       ∧ t.render (args.log.getD (p ++ ".log")) ∈ getInstallerArgsList args inst p))
    ∧ (∀ s, inst.switches.custom = some s →
      (customSwitch inst = some s ∧ s ∈ getInstallerArgsList args inst p))
    ∧ (∀ t loc, inst.switches.installLocation = some t → args.installLocation = some loc →
      (installLocationSwitch args inst = some (t.render loc)
       ∧ t.render loc ∈ getInstallerArgsList args inst p)) := by
  refine ⟨?_, ?_, ?_, ?_, ?_⟩
  · intro s hdecl hsil
    have hsw : silentSwitch args inst = some s := by simp [silentSwitch, hsil, hdecl]
    exact ⟨hsw, mem_getInstallerArgsList args inst p s hnov (Or.inl hsw)⟩
  · intro s hdecl hsil
    have hsw : silentSwitch args inst = some s := by simp [silentSwitch, hsil, hdecl]
    exact ⟨hsw, mem_getInstallerArgsList args inst p s hnov (Or.inl hsw)⟩
  · intro t hdecl
    have hsw : logSwitch args inst p = some (t.render (args.log.getD (p ++ ".log"))) := by
      simp [logSwitch, hdecl]
    exact ⟨hsw, mem_getInstallerArgsList args inst p _ hnov (Or.inr (Or.inl hsw))⟩
  · intro s hdecl
    have hsw : customSwitch inst = some s := hdecl
    exact ⟨hsw, mem_getInstallerArgsList args inst p s hnov (Or.inr (Or.inr (Or.inl hsw)))⟩
  · intro t loc hdecl hloc
    have hsw : installLocationSwitch args inst = some (t.render loc) := by
      simp [installLocationSwitch, hloc, hdecl]
    exact ⟨hsw, mem_getInstallerArgsList args inst p _ hnov (Or.inr (Or.inr (Or.inr hsw)))⟩

def partialSwitchesInstaller : ManifestInstaller :=
  { arch := Architecture.X64, installerType := InstallerType.Msi,
    url := ⟨"https", "//msi.example/app.msi"⟩,
    switches := { log := some ⟨"/mylog=\"", "\""⟩, custom := some ("/mycustom") } }

def logOnlyArgs : ArgsStore := { silent := true, log := some ("MyLog.log") }

theorem manifest_templates_take_precedence_witness :
    (logSwitch logOnlyArgs partialSwitchesInstaller ("app.msi") = some ("/mylog=\"MyLog.log\"")
     ∧ "/mylog=\"MyLog.log\"" ∈ getInstallerArgsList logOnlyArgs partialSwitchesInstaller ("app.msi"))
    ∧ (customSwitch partialSwitchesInstaller = some ("/mycustom")
     ∧ "/mycustom" ∈ getInstallerArgsList logOnlyArgs partialSwitchesInstaller ("app.msi")) := by
  have h := manifest_templates_take_precedence logOnlyArgs partialSwitchesInstaller ("app.msi") rfl
  exact ⟨h.2.2.1 ⟨"/mylog=\"", "\""⟩ rfl, h.2.2.2.1 ("/mycustom") rfl⟩

/-- Claim C3: the match count drives a three-way mutually exclusive branch
of the query-driven install pipeline: zero matches terminates with the
NoApplicableApplication code, prints exactly the no-app message and leaves
the effect ledger untouched (no installer step runs); two or more matches
terminates with the AmbiguousSelection code, prints exactly the
multiple-apps message and leaves the effect ledger untouched; exactly one
match leaves the Context unterminated after the search phase with that
manifest of the single match resolved for installer selection. -/
theorem search_match_count_policy (source : String → List App) (system : Architecture)
    (q : String) (ctx0 : Context) (h0 : ctx0.terminated = false)
    (hq : ctx0.args.query = some q) :
    (source q = [] →
      ((runPipeline ⟨ctx0, []⟩ (searchInstallTasks source system)).ctx.terminated = true
       ∧ (runPipeline ⟨ctx0, []⟩ (searchInstallTasks source system)).ctx.terminationHR
           = some TerminationCode.NoApplicableApplication
       ∧ (runPipeline ⟨ctx0, []⟩ (searchInstallTasks source system)).ctx.out
           = ctx0.out ++ [noAppFoundMsg]
       ∧ (runPipeline ⟨ctx0, []⟩ (searchInstallTasks source system)).ctx.effects
           = ctx0.effects))
    ∧ (∀ a b rest, source q = a :: b :: rest →
      ((runPipeline ⟨ctx0, []⟩ (searchInstallTasks source system)).ctx.terminated = true
       ∧ (runPipeline ⟨ctx0, []⟩ (searchInstallTasks source system)).ctx.terminationHR
           = some TerminationCode.AmbiguousSelection
       ∧ (runPipeline ⟨ctx0, []⟩ (searchInstallTasks source system)).ctx.out
           = ctx0.out ++ [multipleAppMsg]
       ∧ (runPipeline ⟨ctx0, []⟩ (searchInstallTasks source system)).ctx.effects
           = ctx0.effects))
    ∧ (∀ a, source q = [a] →
      ((runPipeline ⟨ctx0, []⟩ (searchPhaseTasks source)).ctx.terminated = false
       ∧ (runPipeline ⟨ctx0, []⟩ (searchPhaseTasks source)).ctx.getData DataKey.Manifest
           = some (DataValue.manifest a.manifest))) := by
  refine ⟨?_, ?_, ?_⟩
  · intro hsrc
    simp [searchInstallTasks, searchPhaseTasks, installerPhaseTasks, runPipeline, runTask,
      shouldExecuteWorkflowTask, WorkflowTask.exec, searchSourceTask, ensureOneMatchTask,
      selectInstallerTask, downloadInstallerTask, getInstallerArgsTask, executeInstallerTask,
      Context.add, Context.getData, Context.terminate, Context.println, Context.recordEffect,
      List.find?, hq, h0, hsrc]
  · intro a b rest hsrc
    simp [searchInstallTasks, searchPhaseTasks, installerPhaseTasks, runPipeline, runTask,
      shouldExecuteWorkflowTask, WorkflowTask.exec, searchSourceTask, ensureOneMatchTask,
      selectInstallerTask, downloadInstallerTask, getInstallerArgsTask, executeInstallerTask,
      Context.add, Context.getData, Context.terminate, Context.println, Context.recordEffect,
      List.find?, hq, h0, hsrc]
  · intro a hsrc
    simp [searchPhaseTasks, runPipeline, runTask, shouldExecuteWorkflowTask,
      WorkflowTask.exec, searchSourceTask, ensureOneMatchTask,
      Context.add, Context.getData, Context.terminate, Context.println,
      List.find?, hq, h0, hsrc]

/-- Claim C9: when no installer entry of the manifest is applicable to the
platform architecture, the manifest-driven install pipeline terminates the
Context with the NoApplicableInstaller code and the effect ledger is left
untouched — no installer artifact is staged or executed. -/
theorem no_applicable_installer_terminates (m : Manifest) (system : Architecture)
    (ctx0 : Context) (h0 : ctx0.terminated = false)
    (h : ∀ i ∈ m.installers, archApplicable system i.arch = false) :
    ((runPipeline ⟨ctx0, []⟩ (manifestInstallTasks m system)).ctx.terminated = true
     ∧ (runPipeline ⟨ctx0, []⟩ (manifestInstallTasks m system)).ctx.terminationHR
         = some TerminationCode.NoApplicableInstaller
     ∧ (runPipeline ⟨ctx0, []⟩ (manifestInstallTasks m system)).ctx.effects = ctx0.effects) := by
  have hf : m.installers.find? (fun i => archApplicable system i.arch) = none := by
    rw [List.find?_eq_none]
    intro x hx
    simp [h x hx]
  simp [manifestInstallTasks, installerPhaseTasks, runPipeline, runTask,
    shouldExecuteWorkflowTask, WorkflowTask.exec, getManifestTask, selectInstallerTask,
    downloadInstallerTask, getInstallerArgsTask, executeInstallerTask,
    Context.add, Context.getData, Context.terminate, Context.recordEffect,
    List.find?, hf, h0]

/-- Claim C5: for packaged-app (MSIX) installs, how the artifact was
resolved determines the deployment URI scheme: with the download flow the
recorded deployment URI is the file-scheme URI of the staged local path,
and with the streaming flow it is the remote https URI of the installer. -/
theorem msix_uri_scheme_selection (m : Manifest) (system : Architecture)
    (i : ManifestInstaller) (ctx0 : Context) (h0 : ctx0.terminated = false)
    (hnp : ctx0.getData DataKey.InstallerPath = none)
    (hsel : m.installers.find? (fun j => archApplicable system j.arch) = some i)
    (hst : i.url.scheme = "https") :
    (installUris (runPipeline ⟨ctx0, []⟩ (msixDownloadInstallTasks m system)).ctx.effects
       = installUris ctx0.effects ++ [⟨"file", stagePathFor i⟩]
     ∧ (⟨"file", stagePathFor i⟩ : Uri).scheme = "file")
    ∧ (installUris (runPipeline ⟨ctx0, []⟩ (msixStreamingInstallTasks m system)).ctx.effects
       = installUris ctx0.effects ++ [i.url]
     ∧ i.url.scheme = "https") := by
  have hnp' : ctx0.data.find? (fun p => decide (p.1 = DataKey.InstallerPath)) = none := by
    simpa [Context.getData] using hnp
  refine ⟨⟨?_, rfl⟩, ⟨?_, hst⟩⟩
  · simp [msixDownloadInstallTasks, runPipeline, runTask, shouldExecuteWorkflowTask,
      WorkflowTask.exec, getManifestTask, selectInstallerTask, downloadInstallerTask,
      msixInstallTask, Context.add, Context.getData, Context.terminate, Context.recordEffect,
      List.find?, installUris, hsel, h0, hnp']
  · simp +decide [msixStreamingInstallTasks, runPipeline, runTask, shouldExecuteWorkflowTask,
      WorkflowTask.exec, getManifestTask, selectInstallerTask, msixInstallTask,
      Context.add, Context.getData, Context.terminate, Context.recordEffect,
      List.find?, installUris, hsel, h0, hnp']

/-! ## Interception lemmas -/

theorem shouldExecute_no_match (task : WorkflowTask) (ctx : Context)
    (ovs : List WorkflowTaskOverride) (h : ∀ wto ∈ ovs, taskEq wto.target task = false) :
    shouldExecuteWorkflowTask ovs task ctx = (true, ctx, ovs) := by
  induction ovs with
  | nil => rfl
  | cons wto rest ih =>
    have hh : taskEq wto.target task = false := h wto (List.mem_cons_self wto rest)
    have ih' := ih (fun w hw => h w (List.mem_cons_of_mem _ hw))
    simp [shouldExecuteWorkflowTask, hh, ih']

theorem shouldExecute_first_match (task : WorkflowTask) (ctx : Context)
    (pre : List WorkflowTaskOverride) (wto : WorkflowTaskOverride)
    (post : List WorkflowTaskOverride)
    (hpre : ∀ w ∈ pre, taskEq w.target task = false)
    (hm : taskEq wto.target task = true) :
    shouldExecuteWorkflowTask (pre ++ wto :: post) task ctx
      = (false, wto.act ctx, pre ++ { wto with used := true } :: post) := by
  induction pre with
  | nil => simp [shouldExecuteWorkflowTask, hm]
  | cons w ws ih =>
    have hw : taskEq w.target task = false := hpre w (List.mem_cons_self w ws)
    have ih' := ih (fun x hx => hpre x (List.mem_cons_of_mem _ hx))
    simp [shouldExecuteWorkflowTask, hw, ih']

theorem shouldExecute_true_iff (task : WorkflowTask) (ctx : Context)
    (ovs : List WorkflowTaskOverride) :
    (shouldExecuteWorkflowTask ovs task ctx).1 = true ↔
      ∀ wto ∈ ovs, taskEq wto.target task = false := by
  induction ovs with
  | nil => simp [shouldExecuteWorkflowTask]
  | cons wto rest ih =>
    cases hh : taskEq wto.target task with
    | true => simp [shouldExecuteWorkflowTask, hh]
    | false => simp [shouldExecuteWorkflowTask, hh, ih]

theorem shouldExecute_ident_congr (a b : WorkflowTask) (h : a.ident = b.ident)
    (ovs : List WorkflowTaskOverride) (ctx : Context) :
    shouldExecuteWorkflowTask ovs a ctx = shouldExecuteWorkflowTask ovs b ctx := by
  induction ovs with
  | nil => rfl
  | cons wto rest ih =>
    have ht : taskEq wto.target a = taskEq wto.target b := by simp [taskEq, h]
    simp [shouldExecuteWorkflowTask, ht, ih]

/-- Claim C4: two Task values are equal exactly when their stable symbolic
identities match, however each was constructed (function reference, name
string, or composite group), and interception matching is determined by
exactly this equality: the interception decision is identical for any two
Tasks of the same identity, so an override registered by function
reference, by name, or by composite task matches the same running Task. -/
theorem task_identity_equality (a b : WorkflowTask) :
    (taskEq a b = true ↔ a.ident = b.ident)
    ∧ (a.ident = b.ident →
        ∀ ovs ctx, shouldExecuteWorkflowTask ovs a ctx = shouldExecuteWorkflowTask ovs b ctx) := by
  refine ⟨?_, fun h ovs ctx => shouldExecute_ident_congr a b h ovs ctx⟩
  simp [taskEq]

def stepXFunc : TaskFunc := ⟨"StepX", fun ctx => ctx⟩

def stepXByFunc : WorkflowTask := WorkflowTask.func stepXFunc

def stepXByName : WorkflowTask := WorkflowTask.byName ("StepX")

def stepXGroup : WorkflowTask := WorkflowTask.group ("StepX") [stepXFunc]

def stepXOverride : WorkflowTaskOverride :=
  { target := stepXByName, act := fun ctx => ctx.println noAppFoundMsg }

theorem task_identity_equality_witness :
    (taskEq stepXByFunc stepXByName = true)
    ∧ shouldExecuteWorkflowTask [stepXOverride] stepXByFunc {}
        = shouldExecuteWorkflowTask [stepXOverride] stepXGroup {} :=
  ⟨(task_identity_equality stepXByFunc stepXByName).1.mpr rfl,
   (task_identity_equality stepXByFunc stepXGroup).2 rfl [stepXOverride] {}⟩

/-- Claim C10: ShouldExecuteWorkflowTask returns true exactly when no
registered override targets the task; when at least one does, the
first-registered matching override — and only that one — has its
substitute action applied to the context, is marked Used, and false is
returned; and because the Used marking does not remove the override, the
same override fires again, in the same way, on every later occurrence of
the task. -/
theorem shouldExecuteWorkflowTask_policy (ovs : List WorkflowTaskOverride)
    (task : WorkflowTask) (ctx : Context) :
    ((shouldExecuteWorkflowTask ovs task ctx).1 = true ↔
       ∀ wto ∈ ovs, taskEq wto.target task = false)
    ∧ ((∀ wto ∈ ovs, taskEq wto.target task = false) →
        shouldExecuteWorkflowTask ovs task ctx = (true, ctx, ovs))
    ∧ (∀ pre wto post, ovs = pre ++ wto :: post →
        (∀ w ∈ pre, taskEq w.target task = false) →
        taskEq wto.target task = true →
        (shouldExecuteWorkflowTask ovs task ctx
           = (false, wto.act ctx, pre ++ { wto with used := true } :: post)
         ∧ ∀ ctx2, shouldExecuteWorkflowTask (pre ++ { wto with used := true } :: post) task ctx2
             = (false, wto.act ctx2, pre ++ { wto with used := true } :: post))) := by
  refine ⟨shouldExecute_true_iff task ctx ovs,
    fun h => shouldExecute_no_match task ctx ovs h, ?_⟩
  intro pre wto post hsplit hpre hm
  subst hsplit
  exact ⟨shouldExecute_first_match task ctx pre wto post hpre hm,
    fun ctx2 => shouldExecute_first_match task ctx2 pre { wto with used := true } post hpre hm⟩

def ovStepA : WorkflowTaskOverride :=
  { target := WorkflowTask.byName ("StepA"), act := fun ctx => ctx.println noAppFoundMsg }

def ovStepB : WorkflowTaskOverride :=
  { target := WorkflowTask.byName ("StepB"), act := fun ctx => ctx.println multipleAppMsg }

def ovStepB2 : WorkflowTaskOverride :=
  { target := WorkflowTask.byName ("StepB"),
    act := fun ctx => ctx.terminate TerminationCode.InstallerFailure }

theorem shouldExecuteWorkflowTask_policy_witness :
    ((shouldExecuteWorkflowTask [ovStepA, ovStepB, ovStepB2]
        (WorkflowTask.byName ("StepC")) {}).1 = true)
    ∧ shouldExecuteWorkflowTask [ovStepA, ovStepB, ovStepB2]
        (WorkflowTask.byName ("StepB")) {}
        = (false, ovStepB.act {}, [ovStepA, { ovStepB with used := true }, ovStepB2])
    ∧ shouldExecuteWorkflowTask [ovStepA, { ovStepB with used := true }, ovStepB2]
        (WorkflowTask.byName ("StepB")) {}
        = (false, ovStepB.act {}, [ovStepA, { ovStepB with used := true }, ovStepB2]) := by
  have hc := shouldExecuteWorkflowTask_policy [ovStepA, ovStepB, ovStepB2]
    (WorkflowTask.byName ("StepC")) {}
  have hb := shouldExecuteWorkflowTask_policy [ovStepA, ovStepB, ovStepB2]
    (WorkflowTask.byName ("StepB")) {}
  refine ⟨hc.1.mpr (by decide), ?_, ?_⟩
  · exact (hb.2.2 [ovStepA] ovStepB [ovStepB2] rfl (by decide) (by decide)).1
  · exact (hb.2.2 [ovStepA] ovStepB [ovStepB2] rfl (by decide) (by decide)).2 {}

/-! ## Witness fixtures and witnesses for the pipeline claims -/

def exeTestInstaller : ManifestInstaller :=
  { arch := Architecture.Neutral, installerType := InstallerType.Exe,
    url := ⟨"https", "//ThisIsNotUsed"⟩,
    switches := { silentWithProgress := some ("/silentwithprogress"),
                  custom := some ("/custom") } }

def exeTestManifest : Manifest :=
  { id := "AppInstallerCliTest.TestInstaller", name := "AppInstaller Test Installer",
    version := "1.0.0.0", installers := [exeTestInstaller] }

def goodManifest : Manifest :=
  { id := "Test.GoodManifest", name := "Good Manifest", version := "1.0.0",
    installers := [exeTestInstaller] }

def testSource : String → List App := fun q =>
  if q == "TestQueryReturnOne" then [⟨exeTestManifest⟩]
  else if q == "TestQueryReturnTwo" then [⟨exeTestManifest⟩, ⟨goodManifest⟩]
  else []

def queryContext (q : String) : Context :=
  { args := { query := some q } }

theorem search_match_count_policy_witness :
    ((runPipeline ⟨queryContext ("TestQueryReturnZero"), []⟩
        (searchInstallTasks testSource Architecture.X64)).ctx.terminated = true
     ∧ (runPipeline ⟨queryContext ("TestQueryReturnZero"), []⟩
        (searchInstallTasks testSource Architecture.X64)).ctx.out = [] ++ [noAppFoundMsg])
    ∧ ((runPipeline ⟨queryContext ("TestQueryReturnTwo"), []⟩
        (searchInstallTasks testSource Architecture.X64)).ctx.terminationHR
          = some TerminationCode.AmbiguousSelection)
    ∧ ((runPipeline ⟨queryContext ("TestQueryReturnOne"), []⟩
        (searchPhaseTasks testSource)).ctx.getData DataKey.Manifest
          = some (DataValue.manifest exeTestManifest)) := by
  have h0 := search_match_count_policy testSource Architecture.X64 ("TestQueryReturnZero")
    (queryContext ("TestQueryReturnZero")) rfl rfl
  have h2 := search_match_count_policy testSource Architecture.X64 ("TestQueryReturnTwo")
    (queryContext ("TestQueryReturnTwo")) rfl rfl
  have h1 := search_match_count_policy testSource Architecture.X64 ("TestQueryReturnOne")
    (queryContext ("TestQueryReturnOne")) rfl rfl
  refine ⟨⟨(h0.1 rfl).1, (h0.1 rfl).2.2.1⟩, ?_, ?_⟩
  · exact (h2.2.1 ⟨exeTestManifest⟩ ⟨goodManifest⟩ [] rfl).2.1
  · exact (h1.2.2 ⟨exeTestManifest⟩ rfl).2

def armOnlyManifest : Manifest :=
  { id := "Test.ArmOnly",
    installers := [{ arch := Architecture.Arm, installerType := InstallerType.Exe,
                     url := ⟨"https", "//arm.example/x.exe"⟩, switches := {} }] }

theorem no_applicable_installer_witness :
    ((runPipeline ⟨{}, []⟩ (manifestInstallTasks armOnlyManifest Architecture.X86)).ctx.terminationHR
       = some TerminationCode.NoApplicableInstaller)
    ∧ (runPipeline ⟨{}, []⟩ (manifestInstallTasks armOnlyManifest Architecture.X86)).ctx.effects
        = [] := by
  have h := no_applicable_installer_terminates armOnlyManifest Architecture.X86 {} rfl (by decide)
  exact ⟨h.2.1, h.2.2⟩

def msixInstallerEntry : ManifestInstaller :=
  { arch := Architecture.Neutral, installerType := InstallerType.Msix,
    url := ⟨"https", "//msix.example/pkg.msix"⟩, switches := {} }

def msixManifest : Manifest := { id := "Test.Msix", installers := [msixInstallerEntry] }

theorem msix_uri_scheme_witness :
    installUris (runPipeline ⟨{}, []⟩
        (msixDownloadInstallTasks msixManifest Architecture.X64)).ctx.effects
      = [⟨"file", stagePathFor msixInstallerEntry⟩]
    ∧ installUris (runPipeline ⟨{}, []⟩
        (msixStreamingInstallTasks msixManifest Architecture.X64)).ctx.effects
      = [msixInstallerEntry.url] := by
  have h := msix_uri_scheme_selection msixManifest Architecture.X64 msixInstallerEntry {}
    rfl rfl (by decide) rfl
  exact ⟨h.1.1, h.2.1⟩

end WingetModel
